import Mathlib

/-!
Shallow embedding of the spatial-text parsing engine of `src/app.py`
(class `VolleyballSheetParser`), together with theorems settling the
frozen claims about it.

Modelling conventions:
* PDF coordinates are modelled as `Int` (the Python code only ever
  compares, subtracts and buckets them by integer constants).
* Python strings are Lean `String`s; `str.isdigit`, `str.strip` and the
  regular expressions of the source are modelled over the ASCII fragment
  the scoresheets use.
* Python's in-place stable `list.sort` is modelled by the stable
  insertion sort `sortBy`; dictionaries are association lists whose
  insert overwrites in place, preserving first-insertion order, as
  Python dicts do.
-/

/-- Python `\s` / `str.strip` whitespace (ASCII fragment). -/
def isSpaceChar (c : Char) : Bool :=
  c = ' ' || c = '\t' || c = '\n' || c = '\r' || c = '\x0b' || c = '\x0c'

/-- Python `\d` (ASCII fragment). -/
def isDigitChar (c : Char) : Bool :=
  decide ('0' ≤ c) && decide (c ≤ '9')

/-- Python `str.isdigit` (ASCII fragment): non-empty and all digits. -/
def isDigits (s : String) : Bool :=
  !s.data.isEmpty && s.data.all isDigitChar

/-- Python `int(...)` on a digits-only string. -/
def parseNat (s : String) : Nat :=
  s.data.foldl (fun acc c => 10 * acc + (c.toNat - Char.toNat '0')) 0

/-- Python `str.strip()`. -/
def pyStrip (s : String) : String :=
  ⟨((s.data.dropWhile isSpaceChar).reverse.dropWhile isSpaceChar).reverse⟩

/-- Does `pat` occur as a prefix of `cs`? -/
def prefixMatch : List Char → List Char → Bool
  | [], _ => true
  | _ :: _, [] => false
  | a :: as, b :: bs => a = b && prefixMatch as bs

/-- Does `pat` occur as a substring (contiguous) of `cs`?  Python `pat in s`. -/
def containsSub (pat : List Char) : List Char → Bool
  | [] => prefixMatch pat []
  | c :: cs => prefixMatch pat (c :: cs) || containsSub pat cs

/-- Python `needle in hay` on strings. -/
def strContains (hay needle : String) : Bool :=
  containsSub needle.data hay.data

/-- Stable insertion used by `sortBy`: `x` goes after every element `y`
with `le y x` (so ties keep their original order). -/
def insertSorted (le : α → α → Bool) (x : α) : List α → List α
  | [] => [x]
  | y :: ys => if le y x then y :: insertSorted le x ys else x :: y :: ys

/-- Stable sort modelling Python's `list.sort(key=...)`. -/
def sortBy (le : α → α → Bool) (l : List α) : List α :=
  l.foldl (fun acc x => insertSorted le x acc) []

/-- A positioned text token: the `{text, x, y}` dictionaries of
`extract_data_from_pdf`. -/
structure Token where
  text : String
  x : Int
  y : Int
  deriving Repr, DecidableEq

/-- An anchor found by `VolleyballSheetParser.parse`: the `"Début"` token's
position together with the captured time stamp. -/
structure Anchor where
  x : Int
  y : Int
  start : String
  deriving Repr, DecidableEq

/-- Sort key `(-y, x)` of `items_to_lines`. -/
def tokLe (a b : Token) : Bool :=
  decide (b.y < a.y ∨ (a.y = b.y ∧ a.x ≤ b.x))

/-- Sort key `x` (`line.sort(key=lambda k: k['x'])`). -/
def xLe (a b : Token) : Bool :=
  decide (a.x ≤ b.x)

/-- Sort key `-y` of the anchor sort in `parse`. -/
def anchorLe (a b : Anchor) : Bool :=
  decide (b.y ≤ a.y)

/-- Descending order on `Int` (`sorted(..., reverse=True)`). -/
def intGe (a b : Int) : Bool :=
  decide (b ≤ a)

/-- The loop of `items_to_lines`: state `(lines, current, last_y)`;
`last_y` is only updated when a break occurs. -/
def linesLoop : List Token → List (List Token) → List Token → Int → List (List Token)
  | [], lines, current, _ => if current.isEmpty then lines else lines ++ [current]
  | item :: rest, lines, current, lastY =>
    if 5 < (item.y - lastY).natAbs then
      linesLoop rest (lines ++ [current]) [item] item.y
    else
      linesLoop rest lines (current ++ [item]) lastY

/-- The body of `items_to_lines` after its initial sort: seed `last_y` with the first
item's `y` and run the loop. -/
def linesOfSorted : List Token → List (List Token)
  | [] => []
  | it :: rest => linesLoop (it :: rest) [] [] it.y

/-- Model of `VolleyballSheetParser.items_to_lines`. -/
def items_to_lines (items : List Token) : List (List Token) :=
  linesOfSorted (sortBy tokLe items)

/-- The merge rule of the amended claim C1, as a structural recursion: a
line is opened by a seed token and takes the following tokens while their
`y` stays within 5 of the seed's `y`; the first token beyond that bound
seeds the next line. -/
def linesBySeedRule : List Token → List (List Token)
  | [] => []
  | t :: ts =>
    (t :: ts.takeWhile (fun u => (u.y - t.y).natAbs ≤ 5)) ::
      linesBySeedRule (ts.dropWhile (fun u => (u.y - t.y).natAbs ≤ 5))
termination_by l => l.length
decreasing_by
  simp only [List.length_cons]
  exact Nat.lt_succ_of_le (List.dropWhile_sublist _).length_le

/-- Does `\d{2}[:h]\d{2}` match at the head of the input? -/
def timeAt : List Char → Bool
  | d1 :: d2 :: c :: d3 :: d4 :: _ =>
    isDigitChar d1 && isDigitChar d2 && (c = ':' || c = 'h') &&
      isDigitChar d3 && isDigitChar d4
  | _ => false

/-- Model of `re.search(r'(\d{2}[:h]\d{2})', text)`: the leftmost time stamp. -/
def firstTimeStamp : List Char → Option String
  | [] => none
  | c :: cs => if timeAt (c :: cs) then some ⟨(c :: cs).take 5⟩ else firstTimeStamp cs

/-- After the first digit and before the final digit of `\d\s?/\s?\d`:
match `\s?\d` with the optional space taken greedily. -/
def slashTail : List Char → Option (List Char)
  | c :: cs =>
    if isSpaceChar c then
      match cs with
      | d :: _ => if isDigitChar d then some [c, d] else none
      | [] => none
    else if isDigitChar c then some [c]
    else none
  | [] => none

/-- Group 2 of the winner regex, `\d\s?/\s?\d`, matched at the head of the
input; returns the matched characters. -/
def fracCap : List Char → Option (List Char)
  | c1 :: '/' :: cs2 =>
    if isDigitChar c1 then (slashTail cs2).map (fun g => c1 :: '/' :: g) else none
  | c1 :: c2 :: '/' :: cs2 =>
    if isDigitChar c1 && isSpaceChar c2 then
      (slashTail cs2).map (fun g => c1 :: c2 :: '/' :: g)
    else none
  | _ => none

/-- The pattern `\s+` (greedy, backtracking) followed by group 2. -/
def spacesThenFrac : List Char → Option (List Char)
  | c :: cs =>
    if isSpaceChar c then
      match spacesThenFrac cs with
      | some g => some g
      | none => fracCap cs
    else none
  | [] => none

/-- The pattern `(.*?)` (lazy, `.` excludes newline) followed by `\s+(\d\s?/\s?\d)`;
returns `(group1, group2)`. -/
def lazyMid : List Char → Option (List Char × List Char)
  | [] => none
  | c :: cs =>
    match spacesThenFrac (c :: cs) with
    | some g2 => some ([], g2)
    | none =>
      if c = '\n' then none
      else (lazyMid cs).map (fun pr => (c :: pr.1, pr.2))

/-- The pattern `[:\s]+` (greedy, backtracking) followed by the rest of the pattern. -/
def colonSpaceThen : List Char → Option (List Char × List Char)
  | c :: cs =>
    if c = ':' || isSpaceChar c then
      match colonSpaceThen cs with
      | some r => some r
      | none => lazyMid cs
    else none
  | [] => none

/-- Consume a literal, returning the remainder. -/
def dropLiteral : List Char → List Char → Option (List Char)
  | [], cs => some cs
  | p :: ps, c :: cs => if c = p then dropLiteral ps cs else none
  | _ :: _, [] => none

/-- Model of `re.search(r'Vainqueur[:\s]+(.*?)\s+(\d\s?/\s?\d)', text)`: leftmost
match, returning the two capture groups. -/
def winnerSearch : List Char → Option (List Char × List Char)
  | [] => none
  | c :: cs =>
    match dropLiteral ("Vainqueur").data (c :: cs) with
    | some rest =>
      match colonSpaceThen rest with
      | some r => some r
      | none => winnerSearch cs
    | none => winnerSearch cs

/-- Model of `re.match(r'^[1-6]$', txt)`. -/
def isRotIdx (txt : String) : Bool :=
  txt == "1" || txt == "2" || txt == "3" || txt == "4" || txt == "5" || txt == "6"

/-- The left-to-right walk of one line in `extract_rotations_spatial`:
state `(rot_idx, points)`; a token is a candidate point only once the
rotation index has been assigned. -/
def lineScan : List Token → Option String → List Nat → Option String × List Nat
  | [], rotIdx, points => (rotIdx, points)
  | item :: rest, rotIdx, points =>
    let txt := pyStrip item.text
    if rotIdx.isNone && isRotIdx txt then lineScan rest (some txt) points
    else if rotIdx.isSome && isDigits txt && decide (parseNat txt ≤ 40) then
      lineScan rest rotIdx (points ++ [parseNat txt])
    else lineScan rest rotIdx points

/-- The `# Filtrer croissant` filter: keep a point only when it exceeds
the running maximum `mx` (initially -1). -/
def cleanFold : List Nat → Int → List Nat
  | [], _ => []
  | p :: ps, mx => if mx < (p : Int) then p :: cleanFold ps p else cleanFold ps mx

/-- Python-dict insert: overwrite an existing key in place, else append. -/
def dictInsert (d : List (String × List Nat)) (k : String) (v : List Nat) :
    List (String × List Nat) :=
  if d.any (fun pr => pr.1 == k) then
    d.map (fun pr => if pr.1 == k then (pr.1, v) else pr)
  else d ++ [(k, v)]

/-- The body of the loop over lines in `extract_rotations_spatial`:
record `rot_idx -> clean` when both a rotation index and at least one
candidate point were found. -/
def rotStep (rotations : List (String × List Nat)) (line : List Token) :
    List (String × List Nat) :=
  match lineScan (sortBy xLe line) none [] with
  | (some k, points) =>
    if points.isEmpty then rotations else dictInsert rotations k (cleanFold points (-1))
  | (none, _) => rotations

/-- Model of `VolleyballSheetParser.extract_rotations_spatial`. -/
def extract_rotations_spatial (lines : List (List Token)) : List (String × List Nat) :=
  lines.foldl rotStep []

/-- Model of `re.match(r'^(I|II|III|IV|V|VI)$', txt)`. -/
def isRoman (txt : String) : Bool :=
  txt == "I" || txt == "II" || txt == "III" || txt == "IV" || txt == "V" || txt == "VI"

/-- Python `round(y / 5) * 5` for an integer `y`: the fractional part of
`y / 5` is never exactly one half, so round-half-even never ties. -/
def pyRound5 (y : Int) : Int :=
  (if Int.emod y 5 ≤ 2 then Int.ediv y 5 else Int.ediv y 5 + 1) * 5

/-- Append a token to its `y` bucket, keeping first-insertion key order. -/
def groupAdd (groups : List (Int × List Token)) (k : Int) (t : Token) :
    List (Int × List Token) :=
  if groups.any (fun pr => pr.1 == k) then
    groups.map (fun pr => if pr.1 == k then (pr.1, pr.2 ++ [t]) else pr)
  else groups ++ [(k, [t])]

/-- The `y_groups` dict of the blind fallback: numeric tokens bucketed by
`round(y/5)*5`. -/
def yGroups (raw : List Token) : List (Int × List Token) :=
  raw.foldl (fun gs t => if isDigits t.text then groupAdd gs (pyRound5 t.y) t else gs) []

def lookupGroup (gs : List (Int × List Token)) (k : Int) : List Token :=
  match gs.find? (fun pr => pr.1 == k) with
  | some pr => pr.2
  | none => []

/-- Tier 3 of `extract_starters_strict`: scan the `y` buckets top-to-bottom
for the first one holding 5 to 7 numeric tokens. -/
def blindScan (raw : List Token) : List Nat :=
  let gs := yGroups raw
  let keys := sortBy intGe (gs.map Prod.fst)
  match keys.find? (fun y =>
      decide (5 ≤ (lookupGroup gs y).length) && decide ((lookupGroup gs y).length ≤ 7)) with
  | some y => ((sortBy xLe (lookupGroup gs y)).take 6).map (fun t => parseNat t.text)
  | none => []

/-- Model of `VolleyballSheetParser.extract_starters_strict`. -/
def extract_starters_strict (lines : List (List Token)) (raw : List Token) : List Nat :=
  let flat := lines.flatten
  let headerY : Option Int :=
    match flat.find? (fun t => isRoman (pyStrip t.text)) with
    | some t => some t.y
    | none =>
      match flat.find? (fun t => strContains t.text ("Formation")) with
      | some t => some (t.y - 15)
      | none => none
  match headerY with
  | none => blindScan raw
  | some hy =>
    let candidates := flat.filter (fun t =>
      decide (hy - 40 < t.y) && decide (t.y < hy - 5) && isDigits t.text)
    ((sortBy xLe candidates).map (fun t => parseNat t.text)).take 6

/-- The metadata record of `parse_match_summary`. -/
structure MatchMeta where
  winner : String
  matchScore : String
  setScores : List String
  deriving Repr, DecidableEq

/-- Model of `" ".join(i['text'] for i in self.all_items)`. -/
def fullText (items : List Token) : String :=
  String.intercalate (" ") (items.map Token.text)

/-- Model of the Python format `f"{s1}-{s2}"`. -/
def natPairStr (a b : Nat) : String :=
  toString a ++ "-" ++ toString b

/-- The numeric tokens (≤ 40) of one footer line, sorted by `x`. -/
def lineNums (line : List Token) : List Nat :=
  (sortBy xLe line).filterMap (fun t =>
    if isDigits t.text && decide (parseNat t.text ≤ 40) then some (parseNat t.text)
    else none)

/-- The body of the footer loop of `parse_match_summary`: with at least
two numeric tokens, take the first and last when one of them is ≥ 10. -/
def footerStep (acc : List String) (line : List Token) : List String :=
  let nums := lineNums line
  if 2 ≤ nums.length then
    if 10 ≤ nums.headD 0 ∨ 10 ≤ nums.getLastD 0 then
      acc ++ [natPairStr (nums.headD 0) (nums.getLastD 0)]
    else acc
  else acc

/-- Model of `VolleyballSheetParser.parse_match_summary`. -/
def parse_match_summary (items : List Token) : MatchMeta :=
  let base : MatchMeta := ⟨"Inconnu", "0/0", []⟩
  let meta :=
    match winnerSearch (fullText items).data with
    | some pr =>
      { base with winner := pyStrip ⟨pr.1⟩,
                  matchScore := ⟨pr.2.filter (fun c => c ≠ ' ')⟩ }
    | none => base
  let footer := items.filter (fun t => decide (t.y < 200) && decide (t.x < 600))
  { meta with setScores := (items_to_lines footer).foldl footerStep [] }

/-- Model of `VolleyballSheetParser.get_max_score`. -/
def get_max_score (rotations : List (String × List Nat)) : Nat :=
  rotations.foldl (fun mx pr => if pr.2.isEmpty then mx else max mx (pr.2.foldl max 0)) 0

/-- The per-team extracted fields of one set. -/
structure TeamSetData where
  starters : List Nat
  rotations : List (String × List Nat)
  deriving Repr, DecidableEq

/-- One parsed set. -/
structure SetRecord where
  setNumber : Nat
  score : String
  home : TeamSetData
  away : TeamSetData
  deriving Repr, DecidableEq

/-- The vertical window of `extract_set_data`: `box_bottom < y < box_top`
with `box_top = a.y + 60`, `box_bottom = a.y - 380` (strict bounds). -/
def setZone (a : Anchor) (items : List Token) : List Token :=
  items.filter (fun t => decide (a.y - 380 < t.y) && decide (t.y < a.y + 60))

/-- The home zone: left bound 0 when `a.x < 300`, else 300; strict bounds. -/
def homeZone (a : Anchor) (items : List Token) : List Token :=
  (setZone a items).filter (fun t =>
    decide ((if a.x < 300 then (0 : Int) else 300) < t.x) && decide (t.x < a.x - 5))

/-- The away zone: `a.x + 10 < x < a.x + 500`, the same in both branches. -/
def awayZone (a : Anchor) (items : List Token) : List Token :=
  (setZone a items).filter (fun t =>
    decide (a.x + 10 < t.x) && decide (t.x < a.x + 500))

/-- Model of `int(final_score.split('-')[1])`. -/
def awayPart (s : String) : Nat :=
  parseNat ((s.splitOn ("-")).getD 1 (""))

/-- Model of `VolleyballSheetParser.extract_set_data`.  `setNum` is the 1-based set
number supplied by `parse` (always ≥ 1, so the Python indexing
`setScores[set_num - 1]` is in range exactly when `set_num <= len`).
`items_to_lines` sorts its argument in place in the Python code, so the
`raw_items` that `extract_starters_strict` receives are the sorted zone
tokens. -/
def extract_set_data (allItems : List Token) (meta : MatchMeta) (anchor : Anchor)
    (setNum : Nat) : SetRecord :=
  let homeSorted := sortBy tokLe (homeZone anchor allItems)
  let awaySorted := sortBy tokLe (awayZone anchor allItems)
  let homeLines := linesOfSorted homeSorted
  let awayLines := linesOfSorted awaySorted
  let homeData : TeamSetData :=
    ⟨extract_starters_strict homeLines homeSorted, extract_rotations_spatial homeLines⟩
  let awayData : TeamSetData :=
    ⟨extract_starters_strict awayLines awaySorted, extract_rotations_spatial awayLines⟩
  let score0 : String :=
    if setNum ≤ meta.setScores.length then meta.setScores.getD (setNum - 1) ("0-0")
    else ("0-0")
  let score1 : String :=
    if score0 == "0-0" then
      if 10 < get_max_score homeData.rotations + get_max_score awayData.rotations then
        natPairStr (get_max_score homeData.rotations) (get_max_score awayData.rotations)
      else score0
    else score0
  let score2 : String :=
    if setNum == 5 && decide (20 < awayPart score1) then
      if strContains meta.winner ("LESCAR") then ("10-15") else score1
    else score1
  ⟨setNum, score2, homeData, awayData⟩

/-- The anchor scan of `VolleyballSheetParser.parse`: tokens containing
`"Début"` whose text carries a time stamp. -/
def findAnchors (items : List Token) : List Anchor :=
  items.filterMap (fun t =>
    if strContains t.text ("Début") then
      match firstTimeStamp t.text.data with
      | some s => some ⟨t.x, t.y, s⟩
      | none => none
    else none)

/-- Anchors sorted top-to-bottom (`anchors.sort(key=lambda k: -k['y'])`). -/
def sortedAnchors (items : List Token) : List Anchor :=
  sortBy anchorLe (findAnchors items)

/-- Model of `enumerate`, shifted: pair each element with its position starting at `n`. -/
def numberFrom (n : Nat) : List Anchor → List (Nat × Anchor)
  | [] => []
  | a :: as => (n, a) :: numberFrom (n + 1) as

/-- Model of `VolleyballSheetParser.parse`; `self.metadata` is computed by
`__init__` from the same token list before parsing. -/
def parse (allItems : List Token) : List SetRecord :=
  let meta := parse_match_summary allItems
  (numberFrom 1 (sortedAnchors allItems)).map
    (fun pr => extract_set_data allItems meta pr.2 pr.1)

/-- An anchor together with its assigned set number. -/
structure NumAnchor where
  x : Int
  y : Int
  setNumber : Nat
  deriving Repr, DecidableEq

/-- The anchors of one parse pass with their set numbers 1..N. -/
def numberedAnchors (items : List Token) : List NumAnchor :=
  (numberFrom 1 (sortedAnchors items)).map (fun pr => ⟨pr.2.x, pr.2.y, pr.1⟩)

/-- The loop of the Line Reconstructor as claim C1 words it: the
reference `y` is the IMMEDIATE PREDECESSOR token's `y` (updated at every
step), not the `y` of the line's first token. -/
def predLoop : List Token → List (List Token) → List Token → Int → List (List Token)
  | [], lines, current, _ => if current.isEmpty then lines else lines ++ [current]
  | item :: rest, lines, current, lastY =>
    if 5 < (item.y - lastY).natAbs then
      predLoop rest (lines ++ [current]) [item] item.y
    else
      predLoop rest lines (current ++ [item]) item.y

/-- The Line Reconstructor as claim C1 states it: sort by `(-y, x)` and
merge while each token is within 5 of its immediate predecessor. -/
def items_to_lines_claimed (items : List Token) : List (List Token) :=
  match sortBy tokLe items with
  | [] => []
  | it :: rest => predLoop (it :: rest) [] [] it.y

/-- The score-resolution rule actually implemented by `extract_set_data`,
as a function of the set number, the footer score table, the winner text
and the two teams' maximal rotation points. -/
def resolveScore (setNum : Nat) (setScores : List String) (winner : String)
    (hmax amax : Nat) : String :=
  let s0 : String :=
    if setNum ≤ setScores.length then setScores.getD (setNum - 1) ("0-0") else ("0-0")
  let s1 : String :=
    if s0 == "0-0" then (if 10 < hmax + amax then natPairStr hmax amax else s0) else s0
  if setNum == 5 && decide (20 < awayPart s1) then
    if strContains winner ("LESCAR") then ("10-15") else s1
  else s1

/-- The two-tier score rule as claim C3 states it: the table value when
the table has an entry for the set, otherwise `"hmax-amax"`. -/
def scoreClaimed (setNum : Nat) (setScores : List String) (hmax amax : Nat) : String :=
  if setNum ≤ setScores.length then setScores.getD (setNum - 1) ("0-0")
  else natPairStr hmax amax

/-- The home zone as claim C6 states it: closed vertical window
`[a.y-380, a.y+60]` and closed horizontal interval. -/
def homeZoneClaimed (a : Anchor) (items : List Token) : List Token :=
  items.filter (fun t =>
    decide (a.y - 380 ≤ t.y) && decide (t.y ≤ a.y + 60) &&
    decide ((if a.x < 300 then (0 : Int) else 300) ≤ t.x) && decide (t.x ≤ a.x - 5))

/-- The away zone as claim C6 states it (closed intervals). -/
def awayZoneClaimed (a : Anchor) (items : List Token) : List Token :=
  items.filter (fun t =>
    decide (a.y - 380 ≤ t.y) && decide (t.y ≤ a.y + 60) &&
    decide (a.x + 10 ≤ t.x) && decide (t.x ≤ a.x + 500))

/-- The per-line footer rule as claim C7 states it: sort by `x`, collect
the numeric tokens ≤ 40 and, when at least two exist, record first and
last exactly when at least one of the two is ≥ 10. -/
def lineScore (line : List Token) : Option String :=
  let nums := lineNums line
  if 2 ≤ nums.length ∧ (10 ≤ nums.headD 0 ∨ 10 ≤ nums.getLastD 0) then
    some (natPairStr (nums.headD 0) (nums.getLastD 0))
  else none

theorem mem_insertSorted (le : α → α → Bool) (x a : α) (l : List α) :
    a ∈ insertSorted le x l ↔ a = x ∨ a ∈ l := by
  induction l with
  | nil => simp [insertSorted]
  | cons y ys ih =>
    simp only [insertSorted]
    cases h : le y x <;> simp [ih] <;> tauto

theorem mem_sortBy (le : α → α → Bool) (a : α) (l : List α) :
    a ∈ sortBy le l ↔ a ∈ l := by
  suffices h : ∀ acc : List α,
      a ∈ l.foldl (fun acc x => insertSorted le x acc) acc ↔ a ∈ acc ∨ a ∈ l by
    simpa [sortBy] using h []
  induction l with
  | nil => intro acc; simp
  | cons x xs ih =>
    intro acc
    simp only [List.foldl_cons, ih, mem_insertSorted, List.mem_cons]
    tauto

theorem pairwise_insertSorted (le : α → α → Bool)
    (htot : ∀ a b, le a b || le b a)
    (htr : ∀ a b c, le a b = true → le b c = true → le a c = true)
    (x : α) (l : List α) (hl : l.Pairwise (fun a b => le a b = true)) :
    (insertSorted le x l).Pairwise (fun a b => le a b = true) := by
  induction l with
  | nil => simp [insertSorted]
  | cons y ys ih =>
    rcases List.pairwise_cons.mp hl with ⟨hy, hys⟩
    simp only [insertSorted]
    cases h : le y x with
    | true =>
      refine List.pairwise_cons.mpr ⟨?_, ih hys⟩
      intro a ha
      rcases (mem_insertSorted le x a ys).mp ha with rfl | ha
      · exact h
      · exact hy a ha
    | false =>
      have hxy : le x y = true := by
        have := htot x y
        cases hxy : le x y with
        | true => rfl
        | false => rw [hxy, h] at this; simp at this
      refine List.pairwise_cons.mpr ⟨?_, hl⟩
      intro a ha
      rcases List.mem_cons.mp ha with rfl | ha
      · exact hxy
      · exact htr x y a hxy (hy a ha)

theorem pairwise_sortBy (le : α → α → Bool)
    (htot : ∀ a b, le a b || le b a)
    (htr : ∀ a b c, le a b = true → le b c = true → le a c = true)
    (l : List α) :
    (sortBy le l).Pairwise (fun a b => le a b = true) := by
  suffices h : ∀ acc : List α, acc.Pairwise (fun a b => le a b = true) →
      (l.foldl (fun acc x => insertSorted le x acc) acc).Pairwise
        (fun a b => le a b = true) by
    exact h [] (by simp)
  induction l with
  | nil => intro acc hacc; simpa using hacc
  | cons x xs ih =>
    intro acc hacc
    exact ih (insertSorted le x acc) (pairwise_insertSorted le htot htr x acc hacc)

theorem length_dropWhile_le (p : α → Bool) (l : List α) :
    (l.dropWhile p).length ≤ l.length := by
  induction l with
  | nil => simp
  | cons x xs ih =>
    rw [List.dropWhile_cons]
    split
    · exact Nat.le_trans ih (Nat.le_succ _)
    · simp

theorem linesLoop_eq_seedRule (rest : List Token) :
    ∀ (lines : List (List Token)) (current : List Token) (lastY : Int),
      current ≠ [] →
      linesLoop rest lines current lastY =
        lines ++ ((current ++ rest.takeWhile (fun u => (u.y - lastY).natAbs ≤ 5)) ::
          linesBySeedRule (rest.dropWhile (fun u => (u.y - lastY).natAbs ≤ 5))) := by
  induction rest with
  | nil =>
    intro lines current lastY hcur
    simp [linesLoop, linesBySeedRule, List.isEmpty_iff, hcur]
  | cons r rs ih =>
    intro lines current lastY hcur
    by_cases h : 5 < (r.y - lastY).natAbs
    · have hw : ((r.y - lastY).natAbs ≤ 5) = False := by simp; omega
      simp only [linesLoop, if_pos h]
      rw [ih (lines ++ [current]) [r] r.y (by simp)]
      simp [List.takeWhile_cons, List.dropWhile_cons, hw, linesBySeedRule]
    · have hw : ((r.y - lastY).natAbs ≤ 5) = True := by simp; omega
      simp only [linesLoop, if_neg h]
      rw [ih lines (current ++ [r]) lastY (by simp)]
      simp [List.takeWhile_cons, List.dropWhile_cons, hw]

theorem linesOfSorted_eq_seedRule (l : List Token) :
    linesOfSorted l = linesBySeedRule l := by
  cases l with
  | nil => simp [linesOfSorted, linesBySeedRule]
  | cons t ts =>
    show linesLoop (t :: ts) [] [] t.y = _
    have h0 : ¬ 5 < (t.y - t.y).natAbs := by simp
    simp only [linesLoop, if_neg h0, List.nil_append]
    rw [linesLoop_eq_seedRule ts [] [t] t.y (by simp)]
    simp [linesBySeedRule]

theorem flatten_linesBySeedRule (l : List Token) :
    (linesBySeedRule l).flatten = l := by
  induction l using linesBySeedRule.induct with
  | case1 => simp [linesBySeedRule]
  | case2 t ts ih =>
    rw [linesBySeedRule]
    simp only [List.flatten_cons, ih, List.cons_append]
    rw [List.takeWhile_append_dropWhile]

theorem flatten_items_to_lines (items : List Token) :
    (items_to_lines items).flatten = sortBy tokLe items := by
  rw [items_to_lines, linesOfSorted_eq_seedRule, flatten_linesBySeedRule]

theorem mem_flatten_items_to_lines (t : Token) (items : List Token) :
    t ∈ (items_to_lines items).flatten ↔ t ∈ items := by
  rw [flatten_items_to_lines, mem_sortBy]

/-- C1 — counterexample.  The Line Reconstructor does NOT merge by the
y-difference to the immediate predecessor: on tokens at y = 100, 96, 92
(every consecutive difference is 4 ≤ 5, so the claimed rule yields one
line) the code yields the two lines [[100, 96], [92]], because it
compares each token to the first token of the current line. -/
theorem C1_counterexample :
    items_to_lines [⟨"a", 0, 100⟩, ⟨"b", 0, 96⟩, ⟨"c", 0, 92⟩] ≠
      items_to_lines_claimed [⟨"a", 0, 100⟩, ⟨"b", 0, 96⟩, ⟨"c", 0, 92⟩] := by
  decide

/-- C1 — amended.  The Line Reconstructor sorts the zone's tokens by
`(-y, x)` and merges a token into the current line exactly while its `y`
differs by at most 5 from the `y` of the first token of the current line
(the `y` recorded at the last break), starting a new line otherwise; an
input of zero or one tokens comes back unmodified (zero lines or one
single-token line) and the empty input never fails. -/
theorem C1_lines_merge_rule :
    (∀ items : List Token, items_to_lines items = linesBySeedRule (sortBy tokLe items)) ∧
    items_to_lines [] = [] ∧
    (∀ t : Token, items_to_lines [t] = [[t]]) := by
  refine ⟨fun items => linesOfSorted_eq_seedRule _, rfl, fun t => ?_⟩
  rw [items_to_lines]
  have hs : sortBy tokLe [t] = [t] := rfl
  rw [hs, linesOfSorted_eq_seedRule]
  simp [linesBySeedRule]

/-- C4 — counterexample.  On the empty token list the winner regex finds
no match, yet the Summary Extractor's sentinel winner is the French
string "Inconnu", not the claimed "Unknown". -/
theorem C4_counterexample :
    winnerSearch (fullText ([] : List Token)).data = none ∧
    (parse_match_summary []).winner ≠ "Unknown" := by
  decide

/-- C4 — amended.  For every input token list on which the winner
announcement regex finds no match in the concatenated token text, the
Summary Extractor returns the sentinel winner "Inconnu" (the source's
French for "Unknown") and matchScore "0/0". -/
theorem C4_no_match_sentinels (items : List Token)
    (h : winnerSearch (fullText items).data = none) :
    (parse_match_summary items).winner = "Inconnu" ∧
    (parse_match_summary items).matchScore = "0/0" := by
  rw [parse_match_summary, h]
  exact ⟨rfl, rfl⟩

/-- C4 — witness for the amended theorem at a concrete matchless input. -/
theorem C4_witness :
    (parse_match_summary [⟨"rien", 5, 50⟩]).winner = "Inconnu" ∧
    (parse_match_summary [⟨"rien", 5, 50⟩]).matchScore = "0/0" :=
  C4_no_match_sentinels [⟨"rien", 5, 50⟩] (by decide)

/-- C9 — the code at the claimed failing input.  The empty token list
does NOT surface a distinct "no tokens supplied" condition: it produces
exactly the same outcome shape — zero SetRecords and sentinel metadata,
with nothing raised — as a non-empty token list in which no anchor is
found. -/
theorem C9_empty_input_indistinguishable :
    parse [] = [] ∧
    parse_match_summary [] = ⟨"Inconnu", "0/0", []⟩ ∧
    parse [⟨"x", 10, 300⟩] = [] ∧
    parse_match_summary [⟨"x", 10, 300⟩] = ⟨"Inconnu", "0/0", []⟩ := by
  refine ⟨rfl, by decide, by decide, by decide⟩

/-- C6 — counterexample.  The zone windows are strict, not closed: a
token at exactly `y = a.y + 60` is inside the claimed closed window but
outside the code's `box_bottom < y < box_top`. -/
theorem C6_counterexample :
    homeZone ⟨250, 500, "10:00"⟩ [⟨"z", 50, 560⟩] ≠
      homeZoneClaimed ⟨250, 500, "10:00"⟩ [⟨"z", 50, 560⟩] := by
  decide

/-- C6 — amended.  The Zone Splitter selects exactly the tokens with
`a.y - 380 < y < a.y + 60` (strict bounds) and splits them horizontally
with strict bounds: the home zone has `x` strictly between 0 (when
`a.x < 300`) or 300 (when `a.x ≥ 300`) and `a.x - 5`, and the away zone
has `x` strictly between `a.x + 10` and `a.x + 500` in both cases;
tokens outside both zones belong to neither. -/
theorem C6_zone_membership (a : Anchor) (items : List Token) (t : Token) :
    (t ∈ homeZone a items ↔ t ∈ items ∧ a.y - 380 < t.y ∧ t.y < a.y + 60 ∧
      (if a.x < 300 then (0 : Int) else 300) < t.x ∧ t.x < a.x - 5) ∧
    (t ∈ awayZone a items ↔ t ∈ items ∧ a.y - 380 < t.y ∧ t.y < a.y + 60 ∧
      a.x + 10 < t.x ∧ t.x < a.x + 500) := by
  constructor <;>
    simp [homeZone, awayZone, setZone, List.mem_filter, and_assoc] <;>
    intro _ <;> tauto

theorem numberFrom_length (n : Nat) (l : List Anchor) :
    (numberFrom n l).length = l.length := by
  induction l generalizing n with
  | nil => rfl
  | cons a as ih => simp [numberFrom, ih]

theorem numberFrom_get (n : Nat) (l : List Anchor) (i : Nat) (hi : i < l.length) :
    (numberFrom n l).get ⟨i, by rw [numberFrom_length]; exact hi⟩ =
      (n + i, l.get ⟨i, hi⟩) := by
  induction l generalizing n i with
  | nil => exact absurd hi (by simp)
  | cons a as ih =>
    cases i with
    | zero => simp [numberFrom]
    | succ k =>
      have hk : k < as.length := Nat.lt_of_succ_lt_succ hi
      have := ih (n + 1) k hk
      simp only [numberFrom, List.get_cons_succ]
      rw [this]
      ring_nf

theorem numberFrom_mem (n : Nat) (l : List Anchor) (pr : Nat × Anchor)
    (h : pr ∈ numberFrom n l) : pr.2 ∈ l := by
  induction l generalizing n with
  | nil => simp [numberFrom] at h
  | cons a as ih =>
    rw [numberFrom] at h
    rcases List.mem_cons.mp h with rfl | h
    · exact List.mem_cons_self _ _
    · exact List.mem_cons_of_mem _ (ih (n + 1) h)

theorem anchorLe_total (a b : Anchor) : anchorLe a b || anchorLe b a := by
  simp only [anchorLe, Bool.or_eq_true, decide_eq_true_iff]
  omega

theorem anchorLe_trans (a b c : Anchor) (h1 : anchorLe a b = true)
    (h2 : anchorLe b c = true) : anchorLe a c = true := by
  simp only [anchorLe, decide_eq_true_iff] at h1 h2 ⊢
  omega

/-- C5.  The Anchor Locator assigns set numbers 1..N to the detected
anchors in order of descending `y` — for any two anchors `a, b` with
`a.y > b.y` the set number of `a` is smaller — and when no anchor is
found the parser produces zero SetRecords without failing. -/
theorem C5_anchor_numbering (items : List Token) :
    (∀ i j (hi : i < (numberedAnchors items).length)
        (hj : j < (numberedAnchors items).length),
      ((numberedAnchors items).get ⟨j, hj⟩).y < ((numberedAnchors items).get ⟨i, hi⟩).y →
      ((numberedAnchors items).get ⟨i, hi⟩).setNumber <
        ((numberedAnchors items).get ⟨j, hj⟩).setNumber) ∧
    (findAnchors items = [] → parse items = []) := by
  constructor
  · intro i j hi hj hy
    have hlen : (numberedAnchors items).length = (sortedAnchors items).length := by
      simp [numberedAnchors, numberFrom_length]
    have hget : ∀ k (hk : k < (numberedAnchors items).length),
        (numberedAnchors items).get ⟨k, hk⟩ =
          ⟨((sortedAnchors items).get ⟨k, hlen ▸ hk⟩).x,
           ((sortedAnchors items).get ⟨k, hlen ▸ hk⟩).y, 1 + k⟩ := by
      intro k hk
      have hk2 : k < (sortedAnchors items).length := hlen ▸ hk
      simp only [numberedAnchors, List.get_map]
      rw [numberFrom_get 1 (sortedAnchors items) k hk2]
    have hpair := pairwise_sortBy anchorLe anchorLe_total anchorLe_trans
      (findAnchors items)
    rw [hget i hi, hget j hj] at hy ⊢
    simp only at hy ⊢
    have hij : i < j := by
      rcases Nat.lt_trichotomy i j with h | h | h
      · exact h
      · subst h; exact absurd hy (lt_irrefl _)
      · exfalso
        have := List.pairwise_iff_get.mp hpair ⟨j, hlen ▸ hj⟩ ⟨i, hlen ▸ hi⟩ h
        rw [anchorLe, decide_eq_true_iff] at this
        exact absurd (lt_of_lt_of_le hy this) (lt_irrefl _)
    omega
  · intro h
    rw [parse]
    simp [sortedAnchors, h, sortBy, numberFrom]

/-- C5 — witness: two anchors at y = 700 and y = 300 get set numbers 1
and 2, and a token list with no anchor parses to zero SetRecords. -/
theorem C5_witness :
    (((numberedAnchors [⟨"Début 10:00", 10, 700⟩, ⟨"Début 11:00", 10, 300⟩]).get
        ⟨0, by decide⟩).setNumber <
      ((numberedAnchors [⟨"Début 10:00", 10, 700⟩, ⟨"Début 11:00", 10, 300⟩]).get
        ⟨1, by decide⟩).setNumber) ∧
    parse [⟨"x", 10, 300⟩] = [] :=
  ⟨(C5_anchor_numbering [⟨"Début 10:00", 10, 700⟩, ⟨"Début 11:00", 10, 300⟩]).1
      0 1 (by decide) (by decide) (by decide),
   (C5_anchor_numbering [⟨"x", 10, 300⟩]).2 (by decide)⟩

theorem cleanFold_mem_gt (ps : List Nat) (m : Int) :
    ∀ q ∈ cleanFold ps m, m < (q : Int) := by
  induction ps generalizing m with
  | nil => simp [cleanFold]
  | cons p ps ih =>
    intro q hq
    rw [cleanFold] at hq
    split at hq
    · rcases List.mem_cons.mp hq with rfl | hq
      · assumption
      · exact lt_trans (by assumption) (ih p q hq)
    · exact ih m q hq

theorem cleanFold_pairwise (ps : List Nat) (m : Int) :
    (cleanFold ps m).Pairwise (· < ·) := by
  induction ps generalizing m with
  | nil => simp [cleanFold]
  | cons p ps ih =>
    rw [cleanFold]
    split
    · refine List.pairwise_cons.mpr ⟨?_, ih p⟩
      intro q hq
      exact_mod_cast cleanFold_mem_gt ps p q hq
    · exact ih m

theorem cleanFold_subset (ps : List Nat) (m : Int) :
    ∀ q ∈ cleanFold ps m, q ∈ ps := by
  induction ps generalizing m with
  | nil => simp [cleanFold]
  | cons p ps ih =>
    intro q hq
    rw [cleanFold] at hq
    split at hq
    · rcases List.mem_cons.mp hq with rfl | hq
      · exact List.mem_cons_self _ _
      · exact List.mem_cons_of_mem _ (ih p q hq)
    · exact List.mem_cons_of_mem _ (ih m q hq)

theorem cleanFold_ne_nil (p : Nat) (ps : List Nat) :
    cleanFold (p :: ps) (-1) ≠ [] := by
  rw [cleanFold]
  have hp : (-1 : Int) < (p : Nat) := by
    have := Int.natCast_nonneg p
    omega
  simp [hp]

theorem lineScan_points_le (line : List Token) :
    ∀ (rotIdx : Option String) (points : List Nat),
      (∀ q ∈ points, q ≤ 40) → ∀ q ∈ (lineScan line rotIdx points).2, q ≤ 40 := by
  induction line with
  | nil => intro rotIdx points h; simpa [lineScan] using h
  | cons item rest ih =>
    intro rotIdx points h
    rw [lineScan]
    split
    · exact ih _ _ h
    · split
      · refine ih _ _ ?_
        intro q hq
        rcases List.mem_append.mp hq with hq | hq
        · exact h q hq
        · have hq2 : q = parseNat (pyStrip item.text) := by simpa using hq
          subst hq2
          rename_i hcond _
          have := (Bool.and_eq_true _ _).mp hcond
          simpa using this.2
      · exact ih _ _ h

theorem dictInsert_values (P : List Nat → Prop) (d : List (String × List Nat))
    (k : String) (v : List Nat) (hd : ∀ pr ∈ d, P pr.2) (hv : P v) :
    ∀ pr ∈ dictInsert d k v, P pr.2 := by
  intro pr hpr
  rw [dictInsert] at hpr
  split at hpr
  · rcases List.mem_map.mp hpr with ⟨q, hq, hqe⟩
    by_cases hk : q.1 == k
    · rw [if_pos hk] at hqe
      rw [← hqe]
      exact hv
    · rw [if_neg hk] at hqe
      rw [← hqe]
      exact hd q hq
  · rcases List.mem_append.mp hpr with hpr | hpr
    · exact hd pr hpr
    · have : pr = (k, v) := by simpa using hpr
      rw [this]
      exact hv

theorem rotStep_values (P : List Nat → Prop)
    (hP : ∀ p ps, (∀ q ∈ cleanFold (p :: ps) (-1), q ≤ 40) → P (cleanFold (p :: ps) (-1)))
    (acc : List (String × List Nat)) (line : List Token)
    (hacc : ∀ pr ∈ acc, P pr.2) : ∀ pr ∈ rotStep acc line, P pr.2 := by
  intro pr hpr
  rw [rotStep] at hpr
  split at hpr
  · rename_i k points heq
    split at hpr
    · exact hacc pr hpr
    · rename_i hne
      cases points with
      | nil => simp at hne
      | cons p ps =>
        refine dictInsert_values P acc k _ hacc ?_ pr hpr
        refine hP p ps ?_
        intro q hq
        have hq2 : q ∈ (p :: ps : List Nat) := cleanFold_subset _ _ q hq
        have hle : ∀ q ∈ (lineScan (sortBy xLe line) none []).2, q ≤ 40 :=
          lineScan_points_le _ none [] (by simp)
        rw [heq] at hle
        exact hle q hq2
  · exact hacc pr hpr

/-- The invariant of claim C2 for the output of the rotation extractor. -/
theorem extract_rotations_values (lines : List (List Token)) :
    ∀ pr ∈ extract_rotations_spatial lines,
      pr.2 ≠ [] ∧ pr.2.Pairwise (· < ·) ∧ ∀ p ∈ pr.2, p ≤ 40 := by
  suffices h : ∀ acc, (∀ pr ∈ acc, pr.2 ≠ [] ∧ pr.2.Pairwise (· < ·) ∧ ∀ p ∈ pr.2, p ≤ 40) →
      ∀ pr ∈ lines.foldl rotStep acc,
        pr.2 ≠ [] ∧ pr.2.Pairwise (· < ·) ∧ ∀ p ∈ pr.2, p ≤ 40 by
    exact h [] (by simp)
  induction lines with
  | nil => intro acc hacc; simpa using hacc
  | cons line rest ih =>
    intro acc hacc
    refine ih (rotStep acc line) ?_
    refine rotStep_values
      (fun v => v ≠ [] ∧ v.Pairwise (· < ·) ∧ ∀ p ∈ v, p ≤ 40) ?_ acc line hacc
    intro p ps hle
    exact ⟨cleanFold_ne_nil p ps, cleanFold_pairwise _ _, hle⟩

theorem extract_set_data_home_rotations (allItems : List Token) (meta : MatchMeta)
    (anchor : Anchor) (setNum : Nat) :
    (extract_set_data allItems meta anchor setNum).home.rotations =
      extract_rotations_spatial (linesOfSorted (sortBy tokLe (homeZone anchor allItems))) :=
  rfl

theorem extract_set_data_away_rotations (allItems : List Token) (meta : MatchMeta)
    (anchor : Anchor) (setNum : Nat) :
    (extract_set_data allItems meta anchor setNum).away.rotations =
      extract_rotations_spatial (linesOfSorted (sortBy tokLe (awayZone anchor allItems))) :=
  rfl

/-- C2.  Every rotation point list of every TeamSetData of every
SetRecord produced by the parser is non-empty, strictly increasing, and
every element is at most 40. -/
theorem C2_rotation_invariant (allItems : List Token) (rec : SetRecord)
    (hrec : rec ∈ parse allItems) (pr : String × List Nat)
    (hpr : pr ∈ rec.home.rotations ∨ pr ∈ rec.away.rotations) :
    pr.2 ≠ [] ∧ pr.2.Pairwise (· < ·) ∧ ∀ p ∈ pr.2, p ≤ 40 := by
  simp only [parse] at hrec
  rcases List.mem_map.mp hrec with ⟨q, hq, rfl⟩
  rcases hpr with hpr | hpr
  · rw [extract_set_data_home_rotations] at hpr
    exact extract_rotations_values _ pr hpr
  · rw [extract_set_data_away_rotations] at hpr
    exact extract_rotations_values _ pr hpr

/-- C2 — witness at a concrete parse whose first record holds the home
rotation list ("1", [2, 3]). -/
theorem C2_witness :
    (((parse [⟨"Début 10:00", 250, 500⟩, ⟨"1", 50, 300⟩, ⟨"2", 60, 300⟩,
        ⟨"3", 70, 300⟩, ⟨"1", 270, 300⟩, ⟨"2", 280, 300⟩]).headD
          ⟨0, "", ⟨[], []⟩, ⟨[], []⟩⟩).home.rotations.headD ("", [])).2 ≠ [] ∧
    (((parse [⟨"Début 10:00", 250, 500⟩, ⟨"1", 50, 300⟩, ⟨"2", 60, 300⟩,
        ⟨"3", 70, 300⟩, ⟨"1", 270, 300⟩, ⟨"2", 280, 300⟩]).headD
          ⟨0, "", ⟨[], []⟩, ⟨[], []⟩⟩).home.rotations.headD ("", [])).2.Pairwise (· < ·) ∧
    ∀ p ∈ (((parse [⟨"Début 10:00", 250, 500⟩, ⟨"1", 50, 300⟩, ⟨"2", 60, 300⟩,
        ⟨"3", 70, 300⟩, ⟨"1", 270, 300⟩, ⟨"2", 280, 300⟩]).headD
          ⟨0, "", ⟨[], []⟩, ⟨[], []⟩⟩).home.rotations.headD ("", [])).2, p ≤ 40 :=
  C2_rotation_invariant
    [⟨"Début 10:00", 250, 500⟩, ⟨"1", 50, 300⟩, ⟨"2", 60, 300⟩,
      ⟨"3", 70, 300⟩, ⟨"1", 270, 300⟩, ⟨"2", 280, 300⟩]
    ((parse [⟨"Début 10:00", 250, 500⟩, ⟨"1", 50, 300⟩, ⟨"2", 60, 300⟩,
        ⟨"3", 70, 300⟩, ⟨"1", 270, 300⟩, ⟨"2", 280, 300⟩]).headD
          ⟨0, "", ⟨[], []⟩, ⟨[], []⟩⟩)
    (by decide)
    (((parse [⟨"Début 10:00", 250, 500⟩, ⟨"1", 50, 300⟩, ⟨"2", 60, 300⟩,
        ⟨"3", 70, 300⟩, ⟨"1", 270, 300⟩, ⟨"2", 280, 300⟩]).headD
          ⟨0, "", ⟨[], []⟩, ⟨[], []⟩⟩).home.rotations.headD ("", []))
    (Or.inl (by decide))

theorem footerStep_eq (acc : List String) (line : List Token) :
    footerStep acc line = acc ++ (lineScore line).toList := by
  rw [footerStep, lineScore]
  by_cases h1 : 2 ≤ (lineNums line).length
  · rw [if_pos h1]
    by_cases h2 : 10 ≤ (lineNums line).headD 0 ∨ 10 ≤ (lineNums line).getLastD 0
    · rw [if_pos h2, if_pos ⟨h1, h2⟩]
      simp
    · rw [if_neg h2, if_neg (fun hc => h2 hc.2)]
      simp
  · rw [if_neg h1, if_neg (fun hc => h1 hc.1)]
    simp

theorem foldl_footerStep (lines : List (List Token)) :
    ∀ acc, lines.foldl footerStep acc = acc ++ lines.filterMap lineScore := by
  induction lines with
  | nil => intro acc; simp
  | cons line rest ih =>
    intro acc
    rw [List.foldl_cons, footerStep_eq, ih, List.filterMap_cons]
    cases h : lineScore line <;> simp [h]

/-- C7.  The Summary Extractor's set-score table is exactly the per-line
first/last rule applied to every reconstructed footer line (tokens with
`y < 200` and `x < 600`): sort the line by `x`, collect its numeric
tokens ≤ 40, and with at least two of them record "first-last" exactly
when at least one of the two is ≥ 10; in particular the footer line with
numeric tokens [12, 25, 1] at x = 50, 70, 90 is recorded as "12-1". -/
theorem C7_footer_first_last :
    (∀ items : List Token, (parse_match_summary items).setScores =
      (items_to_lines (items.filter (fun t => decide (t.y < 200) && decide (t.x < 600)))).filterMap
        lineScore) ∧
    (parse_match_summary [⟨"12", 50, 150⟩, ⟨"25", 70, 150⟩, ⟨"1", 90, 150⟩]).setScores =
      ["12-1"] := by
  constructor
  · intro items
    simp only [parse_match_summary]
    rw [foldl_footerStep]
    simp
  · decide

theorem extract_set_data_setNumber (allItems : List Token) (meta : MatchMeta)
    (anchor : Anchor) (setNum : Nat) :
    (extract_set_data allItems meta anchor setNum).setNumber = setNum :=
  rfl

theorem extract_set_data_score (allItems : List Token) (meta : MatchMeta)
    (anchor : Anchor) (setNum : Nat) :
    (extract_set_data allItems meta anchor setNum).score =
      resolveScore setNum meta.setScores meta.winner
        (get_max_score (extract_set_data allItems meta anchor setNum).home.rotations)
        (get_max_score (extract_set_data allItems meta anchor setNum).away.rotations) :=
  rfl

/-- C3 — counterexample.  With an empty score table and rotation maxima
3 and 2, the claimed rule yields "3-2" but the code leaves the score at
"0-0", because the fallback only fires when `h_max + a_max > 10`. -/
theorem C3_counterexample :
    (parse [⟨"Début 10:00", 250, 500⟩, ⟨"1", 50, 300⟩, ⟨"2", 60, 300⟩,
        ⟨"3", 70, 300⟩, ⟨"1", 270, 300⟩, ⟨"2", 280, 300⟩]).map (fun r => r.score) =
      ["0-0"] ∧
    scoreClaimed 1
      (parse_match_summary [⟨"Début 10:00", 250, 500⟩, ⟨"1", 50, 300⟩, ⟨"2", 60, 300⟩,
        ⟨"3", 70, 300⟩, ⟨"1", 270, 300⟩, ⟨"2", 280, 300⟩]).setScores 3 2 = "3-2" ∧
    ("0-0" : String) ≠ "3-2" := by
  refine ⟨by decide, by decide, by decide⟩

/-- C3 — amended.  The resolved score of every SetRecord is a function of
the set number, the footer score table, the winner text, and the two
teams' maximal rotation points only, by the rule `resolveScore`: the
table value when the table has an entry for the set; if the value so far
is "0-0" (no entry, or a literal "0-0" entry) it becomes "hmax-amax"
when `hmax + amax > 10` and stays "0-0" otherwise; finally, for set 5
with an away component above 20 and a winner containing "LESCAR", it is
overridden to "10-15".  No other rule affects it. -/
theorem C3_score_resolution (allItems : List Token) (rec : SetRecord)
    (hrec : rec ∈ parse allItems) :
    rec.score = resolveScore rec.setNumber (parse_match_summary allItems).setScores
      (parse_match_summary allItems).winner
      (get_max_score rec.home.rotations) (get_max_score rec.away.rotations) := by
  simp only [parse] at hrec
  rcases List.mem_map.mp hrec with ⟨q, hq, rfl⟩
  rfl

/-- C3 — witness for the amended theorem at a concrete parse. -/
theorem C3_witness :
    ((parse [⟨"Début 10:00", 250, 500⟩, ⟨"1", 50, 300⟩, ⟨"2", 60, 300⟩,
        ⟨"3", 70, 300⟩, ⟨"1", 270, 300⟩, ⟨"2", 280, 300⟩]).headD
          ⟨0, "", ⟨[], []⟩, ⟨[], []⟩⟩).score =
      resolveScore
        ((parse [⟨"Début 10:00", 250, 500⟩, ⟨"1", 50, 300⟩, ⟨"2", 60, 300⟩,
          ⟨"3", 70, 300⟩, ⟨"1", 270, 300⟩, ⟨"2", 280, 300⟩]).headD
            ⟨0, "", ⟨[], []⟩, ⟨[], []⟩⟩).setNumber
        (parse_match_summary [⟨"Début 10:00", 250, 500⟩, ⟨"1", 50, 300⟩, ⟨"2", 60, 300⟩,
          ⟨"3", 70, 300⟩, ⟨"1", 270, 300⟩, ⟨"2", 280, 300⟩]).setScores
        (parse_match_summary [⟨"Début 10:00", 250, 500⟩, ⟨"1", 50, 300⟩, ⟨"2", 60, 300⟩,
          ⟨"3", 70, 300⟩, ⟨"1", 270, 300⟩, ⟨"2", 280, 300⟩]).winner
        (get_max_score ((parse [⟨"Début 10:00", 250, 500⟩, ⟨"1", 50, 300⟩, ⟨"2", 60, 300⟩,
          ⟨"3", 70, 300⟩, ⟨"1", 270, 300⟩, ⟨"2", 280, 300⟩]).headD
            ⟨0, "", ⟨[], []⟩, ⟨[], []⟩⟩).home.rotations)
        (get_max_score ((parse [⟨"Début 10:00", 250, 500⟩, ⟨"1", 50, 300⟩, ⟨"2", 60, 300⟩,
          ⟨"3", 70, 300⟩, ⟨"1", 270, 300⟩, ⟨"2", 280, 300⟩]).headD
            ⟨0, "", ⟨[], []⟩, ⟨[], []⟩⟩).away.rotations) :=
  C3_score_resolution
    [⟨"Début 10:00", 250, 500⟩, ⟨"1", 50, 300⟩, ⟨"2", 60, 300⟩,
      ⟨"3", 70, 300⟩, ⟨"1", 270, 300⟩, ⟨"2", 280, 300⟩]
    ((parse [⟨"Début 10:00", 250, 500⟩, ⟨"1", 50, 300⟩, ⟨"2", 60, 300⟩,
        ⟨"3", 70, 300⟩, ⟨"1", 270, 300⟩, ⟨"2", 280, 300⟩]).headD
          ⟨0, "", ⟨[], []⟩, ⟨[], []⟩⟩)
    (by decide)

/-- C10.  When the zone's flattened lines contain a Roman-numeral header
(tier 1 finds `h`) but no purely numeric token lies strictly between
`h.y - 40` and `h.y - 5`, the Lineup Extractor returns the empty
starters list: finding a header commits it to tier 1, so neither the
"Formation" fallback nor the blind positional fallback is attempted. -/
theorem C10_header_commits (lines : List (List Token)) (raw : List Token) (h : Token)
    (hfind : lines.flatten.find? (fun t => isRoman (pyStrip t.text)) = some h)
    (hwin : ∀ t ∈ lines.flatten, isDigits t.text = true →
      ¬ (h.y - 40 < t.y ∧ t.y < h.y - 5)) :
    extract_starters_strict lines raw = [] := by
  simp only [extract_starters_strict, hfind]
  have hfil : lines.flatten.filter (fun t =>
      decide (h.y - 40 < t.y) && decide (t.y < h.y - 5) && isDigits t.text) = [] := by
    rw [List.filter_eq_nil]
    intro t ht hc
    simp only [Bool.and_eq_true, decide_eq_true_iff] at hc
    exact hwin t ht hc.2 ⟨hc.1.1, hc.1.2⟩
  rw [hfil]
  rfl

/-- C10 — witness: a zone whose lines hold a Roman "I" header and a full
six-digit row outside the tier 1 window; the blind fallback alone would
return those six starters, but the extractor returns none. -/
theorem C10_witness :
    extract_starters_strict
      [[⟨"I", 10, 400⟩],
       [⟨"4", 10, 300⟩, ⟨"7", 20, 300⟩, ⟨"9", 30, 300⟩, ⟨"10", 40, 300⟩,
        ⟨"12", 50, 300⟩, ⟨"15", 60, 300⟩]]
      [⟨"I", 10, 400⟩, ⟨"4", 10, 300⟩, ⟨"7", 20, 300⟩, ⟨"9", 30, 300⟩,
       ⟨"10", 40, 300⟩, ⟨"12", 50, 300⟩, ⟨"15", 60, 300⟩] = [] ∧
    blindScan [⟨"I", 10, 400⟩, ⟨"4", 10, 300⟩, ⟨"7", 20, 300⟩, ⟨"9", 30, 300⟩,
       ⟨"10", 40, 300⟩, ⟨"12", 50, 300⟩, ⟨"15", 60, 300⟩] = [4, 7, 9, 10, 12, 15] :=
  ⟨C10_header_commits
      [[⟨"I", 10, 400⟩],
       [⟨"4", 10, 300⟩, ⟨"7", 20, 300⟩, ⟨"9", 30, 300⟩, ⟨"10", 40, 300⟩,
        ⟨"12", 50, 300⟩, ⟨"15", 60, 300⟩]]
      [⟨"I", 10, 400⟩, ⟨"4", 10, 300⟩, ⟨"7", 20, 300⟩, ⟨"9", 30, 300⟩,
       ⟨"10", 40, 300⟩, ⟨"12", 50, 300⟩, ⟨"15", 60, 300⟩]
      ⟨"I", 10, 400⟩ (by decide) (by decide),
   by decide⟩

theorem blindScan_length (raw : List Token) : (blindScan raw).length ≤ 6 := by
  simp only [blindScan]
  cases hk : (sortBy intGe ((yGroups raw).map Prod.fst)).find? (fun y =>
      decide (5 ≤ (lookupGroup (yGroups raw) y).length) &&
      decide ((lookupGroup (yGroups raw) y).length ≤ 7)) with
  | none => simp
  | some y =>
    simp only [List.length_map, List.length_take]
    exact Nat.min_le_left _ _

theorem extract_starters_length (lines : List (List Token)) (raw : List Token) :
    (extract_starters_strict lines raw).length ≤ 6 := by
  simp only [extract_starters_strict]
  cases hr : lines.flatten.find? (fun t => isRoman (pyStrip t.text)) with
  | some t =>
    simp only [List.length_take]
    exact Nat.min_le_left _ _
  | none =>
    cases hf : lines.flatten.find? (fun t => strContains t.text ("Formation")) with
    | some t =>
      simp only [List.length_take]
      exact Nat.min_le_left _ _
    | none => exact blindScan_length raw

theorem groupAdd_members (P : Token → Prop) (gs : List (Int × List Token)) (k : Int)
    (t : Token) (hgs : ∀ pr ∈ gs, ∀ u ∈ pr.2, P u) (ht : P t) :
    ∀ pr ∈ groupAdd gs k t, ∀ u ∈ pr.2, P u := by
  intro pr hpr u hu
  rw [groupAdd] at hpr
  split at hpr
  · rcases List.mem_map.mp hpr with ⟨q, hq, hqe⟩
    by_cases hk : q.1 == k
    · rw [if_pos hk] at hqe
      rw [← hqe] at hu
      rcases List.mem_append.mp hu with hu | hu
      · exact hgs q hq u hu
      · rw [List.mem_singleton.mp hu]
        exact ht
    · rw [if_neg hk] at hqe
      rw [← hqe] at hu
      exact hgs q hq u hu
  · rcases List.mem_append.mp hpr with hpr | hpr
    · exact hgs pr hpr u hu
    · have hpre : pr = (k, [t]) := by simpa using hpr
      rw [hpre] at hu
      rw [List.mem_singleton.mp hu]
      exact ht

theorem yGroups_foldl_members (P : Token → Prop) (l : List Token) :
    ∀ (acc : List (Int × List Token)),
      (∀ pr ∈ acc, ∀ u ∈ pr.2, P u) →
      (∀ t ∈ l, isDigits t.text = true → P t) →
      ∀ pr ∈ l.foldl
        (fun gs t => if isDigits t.text then groupAdd gs (pyRound5 t.y) t else gs) acc,
        ∀ u ∈ pr.2, P u := by
  induction l with
  | nil => intro acc hacc _; simpa using hacc
  | cons t ts ih =>
    intro acc hacc hl
    rw [List.foldl_cons]
    refine ih _ ?_ (fun u hu hd => hl u (List.mem_cons_of_mem _ hu) hd)
    by_cases hd : isDigits t.text = true
    · rw [if_pos hd]
      exact groupAdd_members P acc _ t hacc (hl t (List.mem_cons_self _ _) hd)
    · rw [if_neg hd]
      exact hacc

theorem yGroups_members (raw : List Token) :
    ∀ pr ∈ yGroups raw, ∀ u ∈ pr.2, u ∈ raw ∧ isDigits u.text = true := by
  rw [yGroups]
  exact yGroups_foldl_members _ raw [] (by simp) (fun t ht hd => ⟨ht, hd⟩)

theorem lookupGroup_members (P : Token → Prop) (gs : List (Int × List Token)) (y : Int)
    (hgs : ∀ pr ∈ gs, ∀ u ∈ pr.2, P u) : ∀ u ∈ lookupGroup gs y, P u := by
  intro u hu
  rw [lookupGroup] at hu
  split at hu
  · rename_i pr hfind
    exact hgs pr (List.mem_of_find?_eq_some hfind) u hu
  · simp at hu

theorem blindScan_sources (raw : List Token) :
    ∀ n ∈ blindScan raw, ∃ t, t ∈ raw ∧ isDigits t.text = true ∧ parseNat t.text = n := by
  intro n hn
  simp only [blindScan] at hn
  split at hn
  · rename_i y hfind
    rcases List.mem_map.mp hn with ⟨u, hu, hue⟩
    have hu2 : u ∈ sortBy xLe (lookupGroup (yGroups raw) y) := List.take_subset _ _ hu
    have hu3 : u ∈ lookupGroup (yGroups raw) y := (mem_sortBy _ _ _).mp hu2
    have hP := lookupGroup_members (fun t => t ∈ raw ∧ isDigits t.text = true)
      (yGroups raw) y (yGroups_members raw) u hu3
    exact ⟨u, hP.1, hP.2, hue⟩
  · simp at hn

theorem tier12_sources (flat : List Token) (hy : Int) (items : List Token)
    (hflat : ∀ u ∈ flat, u ∈ items) :
    ∀ n ∈ ((sortBy xLe (flat.filter (fun t =>
        decide (hy - 40 < t.y) && decide (t.y < hy - 5) && isDigits t.text))).map
          (fun t => parseNat t.text)).take 6,
      ∃ t, t ∈ items ∧ isDigits t.text = true ∧ parseNat t.text = n := by
  intro n hn
  have hn2 := List.take_subset _ _ hn
  rcases List.mem_map.mp hn2 with ⟨u, hu, hue⟩
  have hu2 := (mem_sortBy _ _ _).mp hu
  have hu3 := List.mem_filter.mp hu2
  have hcond := hu3.2
  simp only [Bool.and_eq_true] at hcond
  exact ⟨u, hflat u hu3.1, hcond.2, hue⟩

theorem extract_starters_sources (items : List Token) :
    ∀ n ∈ extract_starters_strict (linesOfSorted (sortBy tokLe items)) (sortBy tokLe items),
      ∃ t, t ∈ items ∧ isDigits t.text = true ∧ parseNat t.text = n := by
  have hflat : ∀ u ∈ (linesOfSorted (sortBy tokLe items)).flatten, u ∈ items := by
    intro u hu
    rw [linesOfSorted_eq_seedRule, flatten_linesBySeedRule] at hu
    exact (mem_sortBy _ _ _).mp hu
  intro n hn
  simp only [extract_starters_strict] at hn
  cases hr : (linesOfSorted (sortBy tokLe items)).flatten.find?
      (fun t => isRoman (pyStrip t.text)) with
  | some t =>
    rw [hr] at hn
    exact tier12_sources _ t.y items hflat n hn
  | none =>
    rw [hr] at hn
    cases hf : (linesOfSorted (sortBy tokLe items)).flatten.find?
        (fun t => strContains t.text ("Formation")) with
    | some t =>
      rw [hf] at hn
      exact tier12_sources _ (t.y - 15) items hflat n hn
    | none =>
      rw [hf] at hn
      rcases blindScan_sources _ n hn with ⟨t, ht, hd, hp⟩
      exact ⟨t, (mem_sortBy _ _ _).mp ht, hd, hp⟩

/-- C8 — counterexample.  Starters need not be distinct: two "5" tokens
inside the tier 1 window both survive (nothing deduplicates), so the
produced home starters list is [5, 5]. -/
theorem C8_counterexample :
    ((parse [⟨"Début 09:00", 250, 500⟩, ⟨"I", 40, 400⟩, ⟨"5", 50, 380⟩,
        ⟨"5", 60, 380⟩]).headD ⟨0, "", ⟨[], []⟩, ⟨[], []⟩⟩).home.starters = [5, 5] ∧
    ¬ ([5, 5] : List Nat).Nodup := by
  refine ⟨by decide, by decide⟩

/-- C8 — amended.  Every SetRecord the parser produces comes from one
detected anchor, each team's starters list has at most 6 entries, and
every entry is the integer value of a numeric token drawn from that
team's own zone (home entries from the home zone, away entries from the
away zone — never from across the divider).  The claimed distinctness of
the entries is dropped: the code never deduplicates. -/
theorem C8_starters_bounded_and_zoned (allItems : List Token) (rec : SetRecord)
    (hrec : rec ∈ parse allItems) :
    ∃ a ∈ sortedAnchors allItems,
      rec = extract_set_data allItems (parse_match_summary allItems) a rec.setNumber ∧
      rec.home.starters.length ≤ 6 ∧ rec.away.starters.length ≤ 6 ∧
      (∀ n ∈ rec.home.starters,
        ∃ t, t ∈ homeZone a allItems ∧ isDigits t.text = true ∧ parseNat t.text = n) ∧
      (∀ n ∈ rec.away.starters,
        ∃ t, t ∈ awayZone a allItems ∧ isDigits t.text = true ∧ parseNat t.text = n) := by
  simp only [parse] at hrec
  rcases List.mem_map.mp hrec with ⟨q, hq, rfl⟩
  refine ⟨q.2, numberFrom_mem 1 _ q hq, rfl, ?_, ?_, ?_, ?_⟩
  · exact extract_starters_length _ _
  · exact extract_starters_length _ _
  · exact extract_starters_sources (homeZone q.2 allItems)
  · exact extract_starters_sources (awayZone q.2 allItems)

/-- C8 — witness for the amended theorem at a concrete parse whose home
starters are [5] drawn from the home zone. -/
theorem C8_witness :
    ∃ a ∈ sortedAnchors [⟨"Début 09:00", 250, 500⟩, ⟨"I", 40, 400⟩, ⟨"5", 50, 380⟩],
      ((parse [⟨"Début 09:00", 250, 500⟩, ⟨"I", 40, 400⟩, ⟨"5", 50, 380⟩]).headD
          ⟨0, "", ⟨[], []⟩, ⟨[], []⟩⟩) =
        extract_set_data [⟨"Début 09:00", 250, 500⟩, ⟨"I", 40, 400⟩, ⟨"5", 50, 380⟩]
          (parse_match_summary [⟨"Début 09:00", 250, 500⟩, ⟨"I", 40, 400⟩, ⟨"5", 50, 380⟩])
          a
          ((parse [⟨"Début 09:00", 250, 500⟩, ⟨"I", 40, 400⟩, ⟨"5", 50, 380⟩]).headD
            ⟨0, "", ⟨[], []⟩, ⟨[], []⟩⟩).setNumber ∧
      ((parse [⟨"Début 09:00", 250, 500⟩, ⟨"I", 40, 400⟩, ⟨"5", 50, 380⟩]).headD
          ⟨0, "", ⟨[], []⟩, ⟨[], []⟩⟩).home.starters.length ≤ 6 ∧
      ((parse [⟨"Début 09:00", 250, 500⟩, ⟨"I", 40, 400⟩, ⟨"5", 50, 380⟩]).headD
          ⟨0, "", ⟨[], []⟩, ⟨[], []⟩⟩).away.starters.length ≤ 6 ∧
      (∀ n ∈ ((parse [⟨"Début 09:00", 250, 500⟩, ⟨"I", 40, 400⟩, ⟨"5", 50, 380⟩]).headD
          ⟨0, "", ⟨[], []⟩, ⟨[], []⟩⟩).home.starters,
        ∃ t, t ∈ homeZone a [⟨"Début 09:00", 250, 500⟩, ⟨"I", 40, 400⟩, ⟨"5", 50, 380⟩] ∧
          isDigits t.text = true ∧ parseNat t.text = n) ∧
      (∀ n ∈ ((parse [⟨"Début 09:00", 250, 500⟩, ⟨"I", 40, 400⟩, ⟨"5", 50, 380⟩]).headD
          ⟨0, "", ⟨[], []⟩, ⟨[], []⟩⟩).away.starters,
        ∃ t, t ∈ awayZone a [⟨"Début 09:00", 250, 500⟩, ⟨"I", 40, 400⟩, ⟨"5", 50, 380⟩] ∧
          isDigits t.text = true ∧ parseNat t.text = n) :=
  C8_starters_bounded_and_zoned
    [⟨"Début 09:00", 250, 500⟩, ⟨"I", 40, 400⟩, ⟨"5", 50, 380⟩]
    ((parse [⟨"Début 09:00", 250, 500⟩, ⟨"I", 40, 400⟩, ⟨"5", 50, 380⟩]).headD
      ⟨0, "", ⟨[], []⟩, ⟨[], []⟩⟩)
    (by decide)
